import Mathlib

/-!
# bashbrew registry inspection (cmd/bashbrew/registry.go)

A shallow embedding of the three functions of `registry.go`:
`fetchRegistryImageId`, `fetchRegistryManiestListDigests` and
`fetchRegistryResolveHelper` (with its `Host` callback).

The two package-level maps are an explicit `State`; the calls made on the
registry client (`Resolve`, `Fetcher`, `Fetch`) are recorded, in order, in the
`calls` field of the state. Everything the file imports from other packages
(reference parsing, the resolver, the JSON decoder, `url.Parse`, `os.Getenv`)
is a field of `World`. Go errors are `Except String`; a nil slice and an empty
slice are both the empty list; a fetched stream is its content, and the
deferred `r.Close()`, which touches neither result nor caches, is left out.
-/

namespace Bashbrew

/-! ## Data model -/

/-- The `ocispec.Descriptor` fields the program reads. -/
structure Descriptor where
  mediaType : String
  digest : String
  size : Nat
deriving DecidableEq, Repr

/-- The `ocispec.Manifest` fields the decoder fills. -/
structure Manifest where
  config : Descriptor
  layers : List Descriptor
deriving DecidableEq, Repr

/-- The `ocispec.Index` fields the decoder fills. -/
structure Index where
  manifests : List Descriptor
deriving DecidableEq, Repr

/-- Constant `images.MediaTypeDockerSchema2Manifest`. -/
def MediaTypeDockerSchema2Manifest : String :=
  "application/vnd.docker.distribution.manifest.v2+json"

/-- Constant `ocispec.MediaTypeImageManifest`. -/
def MediaTypeImageManifest : String :=
  "application/vnd.oci.image.manifest.v1+json"

/-- Constant `images.MediaTypeDockerSchema2ManifestList`. -/
def MediaTypeDockerSchema2ManifestList : String :=
  "application/vnd.docker.distribution.manifest.list.v2+json"

/-- Constant `ocispec.MediaTypeImageIndex`. -/
def MediaTypeImageIndex : String :=
  "application/vnd.oci.image.index.v1+json"

/-- The fields of `url.URL`, without the user information; the program reads
`Host`. Field `rootless` is Go's `Opaque`. -/
structure URL where
  scheme : String
  rootless : String
  host : String
  path : String
  rawQuery : String
  fragment : String
deriving DecidableEq, Repr

/-- References of the `reference/docker` package, by concrete type:
`digestReference` is the only one that is not `Named`. -/
inductive Reference where
  | digestReference (digest : String)
  | repository (domain path : String)
  | taggedReference (domain path tag : String)
  | canonicalReference (domain path digest : String)
  | reference (domain path tag digest : String)
deriving DecidableEq, Repr

/-- Type assertion `ref.(docker.Named)`. -/
def Reference.isNamed : Reference → Bool
  | .digestReference _ => false
  | _ => true

/-- Method `Name()` of a repository: `domain + "/" + path`, or the path alone
when the domain is empty. -/
def repositoryName (domain path : String) : String :=
  if domain = "" then path else domain ++ "/" ++ path

/-- Method `String()` of each reference type. -/
def Reference.String : Reference → String
  | .digestReference d => d
  | .repository dom p => repositoryName dom p
  | .taggedReference dom p t => repositoryName dom p ++ ":" ++ t
  | .canonicalReference dom p d => repositoryName dom p ++ "@" ++ d
  | .reference dom p t d => repositoryName dom p ++ ":" ++ t ++ "@" ++ d

/-- Function `docker.IsNameOnly`: a name that is neither tagged nor
canonical. -/
def IsNameOnly : Reference → Bool
  | .repository _ _ => true
  | _ => false

/-- Constant `defaultTag` of the `reference/docker` package. -/
def defaultTag : String := "latest"

/-- Function `docker.WithTag`: the name with the given tag, keeping a digest
the name already has. -/
def WithTag : Reference → String → Reference
  | .repository dom p, t => .taggedReference dom p t
  | .taggedReference dom p _, t => .taggedReference dom p t
  | .canonicalReference dom p d, t => .reference dom p t d
  | .reference dom p _ d, t => .reference dom p t d
  | .digestReference d, _ => .digestReference d

/-- Function `docker.TagNameOnly`: a name-only reference gets the default tag,
every other reference is returned as it is. -/
def TagNameOnly (ref : Reference) : Reference :=
  if IsNameOnly ref then WithTag ref defaultTag else ref

/-- A `remotes.Fetcher`. -/
structure Fetcher where
  fetch : Descriptor → Except String String

/-- A `remotes.Resolver`. -/
structure Resolver where
  resolve : String → Except String (String × Descriptor)
  fetcher : String → Except String Fetcher

/-- The `config.HostOptions` the helper builds. -/
structure HostOptions where
  credentials : String → Except String (String × String)
  insecureSkipVerify : Bool

/-- The `dockerremote.ResolverOptions` the helper builds. -/
structure ResolverOptions where
  hosts : HostOptions
  host : String → Except String String

/-- What `registry.go` calls in other packages. -/
structure World where
  /-- Function `docker.ParseAnyReference`. -/
  parseAnyReference : String → Except String Reference
  /-- Function `os.Getenv` (the empty string for an unset variable). -/
  getenv : String → String
  /-- Function `url.Parse`. -/
  urlParse : String → Except String URL
  /-- Function `dockerremote.NewResolver` over `config.ConfigureHosts`. -/
  newResolver : ResolverOptions → Resolver
  /-- Call `json.NewDecoder(r).Decode(&manifest)` on a fetched body. -/
  decodeManifest : String → Except String Manifest
  /-- Call `json.NewDecoder(r).Decode(&manifestList)` on a fetched body. -/
  decodeIndex : String → Except String Index

deriving instance DecidableEq for Except

/-- A Go `map[string]α`: a lookup gives the value and `ok`. -/
abbrev Cache (α : Type) := String → Option α

/-- The map literal `map[string]α{}`. -/
def Cache.empty {α : Type} : Cache α := fun _ => none

/-- Assignment `m[k] = v`. -/
def Cache.insert {α : Type} (m : Cache α) (k : String) (v : α) : Cache α :=
  fun k' => if k' = k then some v else m k'

/-- A call on the registry client. -/
inductive Event where
  | resolve (ref : String)
  | fetcher (name : String)
  | fetch (desc : Descriptor)
deriving DecidableEq, Repr

/-- The two package-level caches and the record of registry calls. -/
structure State where
  registryImageIdCache : Cache String
  registryManifestListCache : Cache (List String)
  calls : List Event

/-- Both caches as at program start, no call made. -/
def State.init : State := ⟨Cache.empty, Cache.empty, []⟩

/-- Append one registry call to the record. -/
def State.record (s : State) (e : Event) : State :=
  ⟨s.registryImageIdCache, s.registryManifestListCache, s.calls ++ [e]⟩

/-- Assignment `registryImageIdCache[digest] = id`. -/
def State.setImageId (s : State) (digest id : String) : State :=
  ⟨s.registryImageIdCache.insert digest id, s.registryManifestListCache, s.calls⟩

/-- Assignment `registryManifestListCache[digest] = digests`. -/
def State.setManifestList (s : State) (digest : String) (digests : List String) : State :=
  ⟨s.registryImageIdCache, s.registryManifestListCache.insert digest digests, s.calls⟩

/-! ## The functions of registry.go -/

/-- The `Host` callback of the resolver options (registry.go 146-158). -/
def hostCallback (W : World) (host : String) : Except String String :=
  if host = "docker.io" then
    let publicProxy := W.getenv "DOCKERHUB_PUBLIC_PROXY"
    if publicProxy ≠ "" then
      match W.urlParse publicProxy with
      | .ok publicProxyURL => .ok publicProxyURL.host
      | .error err => .error err
    else .ok host
  else .ok host

/-- The resolver options built by the helper (registry.go 134-159). -/
def resolverOptions (W : World) (username password : String) : ResolverOptions :=
  ⟨⟨fun _ => .ok (username, password), true⟩, hostCallback W⟩

/-- Function `fetchRegistryResolveHelper` (registry.go 122-161). -/
def fetchRegistryResolveHelper (W : World) (image username password : String) :
    Except String (String × Resolver) :=
  match W.parseAnyReference image with
  | .error err => .error err
  | .ok ref =>
    let ref := if ref.isNamed then TagNameOnly ref else ref
    .ok (ref.String, W.newResolver (resolverOptions W username password))

/-- Function `fetchRegistryImageId` (registry.go 22-64). -/
def fetchRegistryImageId (W : World) (image username password : String) (s : State) :
    String × State :=
  match fetchRegistryResolveHelper W image username password with
  | .error _ => ("", s)
  | .ok (ref, resolver) =>
    let s := s.record (.resolve ref)
    match resolver.resolve ref with
    | .error _ => ("", s)
    | .ok (name, desc) =>
      if desc.mediaType ≠ MediaTypeDockerSchema2Manifest ∧
          desc.mediaType ≠ MediaTypeImageManifest then ("", s)
      else
        let digest := desc.digest
        match s.registryImageIdCache digest with
        | some id => (id, s)
        | none =>
          let s := s.record (.fetcher name)
          match resolver.fetcher name with
          | .error _ => ("", s)
          | .ok fetcher =>
            let s := s.record (.fetch desc)
            match fetcher.fetch desc with
            | .error _ => ("", s)
            | .ok r =>
              match W.decodeManifest r with
              | .error _ => ("", s)
              | .ok manifest =>
                let id := manifest.config.digest
                if id ≠ "" then (id, s.setImageId digest id) else (id, s)

/-- The loop of registry.go 110-115 over `manifestList.Manifests`. -/
def collectDigests (manifests : List Descriptor) : List String :=
  manifests.foldl
    (fun digests manifest =>
      if manifest.digest ≠ "" then digests ++ [manifest.digest] else digests)
    []

/-- Function `fetchRegistryManiestListDigests` (registry.go 69-120). -/
def fetchRegistryManiestListDigests (W : World) (image username password : String)
    (s : State) : List String × State :=
  match fetchRegistryResolveHelper W image username password with
  | .error _ => ([], s)
  | .ok (ref, resolver) =>
    let s := s.record (.resolve ref)
    match resolver.resolve ref with
    | .error _ => ([], s)
    | .ok (name, desc) =>
      let digest := desc.digest
      if desc.mediaType = MediaTypeDockerSchema2Manifest ∨
          desc.mediaType = MediaTypeImageManifest then ([digest], s)
      else if desc.mediaType ≠ MediaTypeDockerSchema2ManifestList ∧
          desc.mediaType ≠ MediaTypeImageIndex then ([], s)
      else
        match s.registryManifestListCache digest with
        | some digests => (digests, s)
        | none =>
          let s := s.record (.fetcher name)
          match resolver.fetcher name with
          | .error _ => ([], s)
          | .ok fetcher =>
            let s := s.record (.fetch desc)
            match fetcher.fetch desc with
            | .error _ => ([], s)
            | .ok r =>
              match W.decodeIndex r with
              | .error _ => ([], s)
              | .ok manifestList =>
                let digests := collectDigests manifestList.manifests
                if digests.length > 0 then (digests, s.setManifestList digest digests)
                else (digests, s)

/-! ## A concrete world

Used to evaluate the functions on concrete inputs; every general theorem below
is stated for an arbitrary `World`. The reference parser follows
`ParseAnyReference`, `ParseNormalizedNamed`, `splitDockerDomain` and `Parse` of
the `reference/docker` package and `Parse` of `go-digest`, for ASCII input and
domains without an IPv6 literal. The URL parser follows `url.Parse` for input
without `%` escapes, IPv6 literals and characters that `%q` would escape in an
error text; the user information of a URL is checked and dropped. -/

/-- Split at the first occurrence of `c`, which is dropped. -/
def splitAtChar (c : Char) : List Char → Option (List Char × List Char)
  | [] => none
  | x :: xs =>
    if x = c then some ([], xs)
    else match splitAtChar c xs with
      | some (a, b) => some (x :: a, b)
      | none => none

/-- Split at the last occurrence of `c`, which is dropped. -/
def splitAtLast (c : Char) (l : List Char) : Option (List Char × List Char) :=
  match splitAtChar c l.reverse with
  | some (a, b) => some (b.reverse, a.reverse)
  | none => none

/-- The pieces between the occurrences of `c` (`strings.Split`). -/
def splitOnChar (c : Char) : List Char → List (List Char)
  | [] => [[]]
  | x :: xs =>
    if x = c then [] :: splitOnChar c xs
    else match splitOnChar c xs with
      | piece :: pieces => (x :: piece) :: pieces
      | [] => [[x]]

/-- Constant `defaultDomain` of the `reference/docker` package. -/
def defaultDomain : List Char := "docker.io".data

/-- Constant `legacyDefaultDomain` of the `reference/docker` package. -/
def legacyDefaultDomain : List Char := "index.docker.io".data

/-- Constant `officialRepoName` of the `reference/docker` package. -/
def officialRepoName : List Char := "library".data

/-- Function `splitDockerDomain` of the `reference/docker` package: a name
whose first component has no `.` or `:` and is not `localhost` has no domain
and gets the default one; a single-component name on the default domain gets
the `library/` repository. -/
def splitDockerDomain (name : List Char) : List Char × List Char :=
  let split : List Char × List Char :=
    match splitAtChar '/' name with
    | none => (defaultDomain, name)
    | some (first, rest) =>
      if ¬ (first.contains '.' ∨ first.contains ':') ∧ first ≠ "localhost".data then
        (defaultDomain, name)
      else (first, rest)
  let domain := if split.1 = legacyDefaultDomain then defaultDomain else split.1
  let remainder :=
    if domain = defaultDomain ∧ ¬ split.2.contains '/' then officialRepoName ++ '/' :: split.2
    else split.2
  (domain, remainder)

/-- Lower-case letter or digit (`[a-z0-9]`). -/
def isLowerAlnum (c : Char) : Bool := c.isLower || c.isDigit

/-- Lower-case hexadecimal digit (`[a-f0-9]`). -/
def isLowerHex (c : Char) : Bool := c.isDigit || (decide ('a' ≤ c) && decide (c ≤ 'f'))

/-- Hexadecimal digit of either case (`[[:xdigit:]]`). -/
def isHex (c : Char) : Bool := isLowerHex c || (decide ('A' ≤ c) && decide (c ≤ 'F'))

/-- Where the scan of a path component stands. -/
inductive Scan where
  | needAlnum
  | afterAlnum
  | afterUnderscore
  | inDashes
deriving DecidableEq, Repr

/-- The `path-component` grammar, `[a-z0-9]+(?:(?:[._]|__|[-]*)[a-z0-9]+)*`,
as a scan: runs of lower-case letters and digits separated by `.`, `_`, `__`
or a run of `-`. -/
def scanComponent : Scan → List Char → Bool
  | st, [] => st = .afterAlnum
  | .needAlnum, c :: cs => isLowerAlnum c && scanComponent .afterAlnum cs
  | .afterAlnum, c :: cs =>
    if isLowerAlnum c then scanComponent .afterAlnum cs
    else if c = '.' then scanComponent .needAlnum cs
    else if c = '_' then scanComponent .afterUnderscore cs
    else if c = '-' then scanComponent .inDashes cs
    else false
  | .afterUnderscore, c :: cs =>
    if isLowerAlnum c then scanComponent .afterAlnum cs
    else if c = '_' then scanComponent .needAlnum cs
    else false
  | .inDashes, c :: cs =>
    if isLowerAlnum c then scanComponent .afterAlnum cs
    else if c = '-' then scanComponent .inDashes cs
    else false

/-- One `path-component` of the reference grammar. -/
def componentOk (comp : List Char) : Bool := scanComponent .needAlnum comp

/-- The path of a name: `path-component` pieces separated by `/`. -/
def pathOk (p : List Char) : Bool := (splitOnChar '/' p).all componentOk

/-- One `domain-component`: letters, digits and `-`, with a letter or digit at
both ends. -/
def domainComponentOk (comp : List Char) : Bool :=
  comp.all (fun c => c.isAlphanum || c = '-') &&
  (match comp.head? with
    | some c => c.isAlphanum
    | none => false) &&
  (match comp.getLast? with
    | some c => c.isAlphanum
    | none => false)

/-- The `domain` grammar: `domain-component` pieces separated by `.`, then an
optional `:` and a port of digits. -/
def domainOk (d : List Char) : Bool :=
  match splitAtChar ':' d with
  | none => (splitOnChar '.' d).all domainComponentOk
  | some (host, port) =>
    (splitOnChar '.' host).all domainComponentOk && port ≠ [] && port.all Char.isDigit

/-- The `tag` grammar: `[\w][\w.-]{0,127}`. -/
def tagOk (t : List Char) : Bool :=
  t ≠ [] && t.length ≤ 128 && t.head? ≠ some '.' && t.head? ≠ some '-' &&
  t.all (fun c => c.isAlphanum || c = '_' || c = '.' || c = '-')

/-- One piece of a digest algorithm in the reference grammar:
`[A-Za-z][A-Za-z0-9]*`. -/
def algorithmPieceOk (piece : List Char) : Bool :=
  piece.all Char.isAlphanum &&
  (match piece.head? with
    | some c => c.isAlpha
    | none => false)

/-- The pieces of an algorithm name, split at each of `-`, `_`, `+`, `.`. -/
def algorithmPieces (alg : List Char) : List (List Char) :=
  (splitOnChar '-' (alg.map (fun c => if c = '_' ∨ c = '+' ∨ c = '.' then '-' else c)))

/-- The `digest` grammar of a reference:
`[A-Za-z][A-Za-z0-9]*(?:[-_+.][A-Za-z][A-Za-z0-9]*)*[:][[:xdigit:]]{32,}`. -/
def digestGrammarOk (d : List Char) : Bool :=
  match splitAtChar ':' d with
  | none => false
  | some (alg, hex) =>
    (algorithmPieces alg).all algorithmPieceOk && decide (32 ≤ hex.length) && hex.all isHex

/-- The length of the hexadecimal encoding for each algorithm `go-digest`
registers: `sha256`, `sha384`, `sha512`. -/
def algorithmHexLength (alg : List Char) : Option Nat :=
  if alg = "sha256".data then some 64
  else if alg = "sha384".data then some 96
  else if alg = "sha512".data then some 128
  else none

/-- Pattern `DigestRegexpAnchored` of `go-digest`:
`[a-z0-9]+(?:[.+_-][a-z0-9]+)*:[a-zA-Z0-9=_-]+`. -/
def digestRegexpAnchored (alg encoded : List Char) : Bool :=
  (algorithmPieces alg).all (fun piece => piece ≠ [] && piece.all isLowerAlnum) &&
  encoded ≠ [] && encoded.all (fun c => c.isAlphanum || c = '=' || c = '_' || c = '-')

/-- Function `digest.Parse` of `go-digest` (`Digest.Validate`): the algorithm
must be registered and the encoding must be lower-case hexadecimal of the
length of the algorithm. -/
def digestParse (d : List Char) : Except String Unit :=
  match splitAtChar ':' d with
  | none => .error "invalid checksum digest format"
  | some ([], _) => .error "invalid checksum digest format"
  | some (_, []) => .error "invalid checksum digest format"
  | some (alg, encoded) =>
    match algorithmHexLength alg with
    | none =>
      if digestRegexpAnchored alg encoded then .error "unsupported digest algorithm"
      else .error "invalid checksum digest format"
    | some n =>
      if encoded.length ≠ n then .error "invalid checksum digest length"
      else if encoded.all isLowerHex then .ok ()
      else .error "invalid checksum digest format"

/-- Constant `NameTotalLengthMax` of the `reference/docker` package. -/
def NameTotalLengthMax : Nat := 255

/-- Function `Parse` of the `reference/docker` package on `domain/remainder`:
the grammar `name [ ":" tag ] [ "@" digest ]`, where the first piece of the
name is its domain when it has the form of one and a path component
otherwise; then the length limit of the name and the validation of the
digest. -/
def parseReference (domain remainder : List Char) : Except String Reference :=
  let (nameTag, digest) : List Char × Option (List Char) :=
    match splitAtChar '@' remainder with
    | none => (remainder, none)
    | some (a, b) => (a, some b)
  let (path, tag) : List Char × Option (List Char) :=
    match splitAtChar ':' nameTag with
    | none => (nameTag, none)
    | some (a, b) => (a, some b)
  let restOk : Bool :=
    pathOk path &&
    (match tag with
      | none => true
      | some t => tagOk t) &&
    (match digest with
      | none => true
      | some d => digestGrammarOk d)
  if ¬ (restOk ∧ (domainOk domain ∨ componentOk domain)) then
    if restOk ∧ componentOk (domain.map Char.toLower) then
      .error "repository name must be lowercase"
    else .error "invalid reference format"
  else if domain.length + 1 + path.length > NameTotalLengthMax then
    .error "repository name must not be more than 255 characters"
  else
    let (dom, p) : List Char × List Char :=
      if domainOk domain then (domain, path) else ([], domain ++ '/' :: path)
    match tag, digest with
    | none, none => .ok (.repository (String.mk dom) (String.mk p))
    | some t, none => .ok (.taggedReference (String.mk dom) (String.mk p) (String.mk t))
    | none, some d =>
      match digestParse d with
      | .error err => .error err
      | .ok _ => .ok (.canonicalReference (String.mk dom) (String.mk p) (String.mk d))
    | some t, some d =>
      match digestParse d with
      | .error err => .error err
      | .ok _ => .ok (.reference (String.mk dom) (String.mk p) (String.mk t) (String.mk d))

/-- Pattern `anchoredIdentifierRegexp`: 64 lower-case hexadecimal digits. -/
def isIdentifier (s : List Char) : Bool := s.length = 64 && s.all isLowerHex

/-- Function `ParseNormalizedNamed` of the `reference/docker` package: the
domain is split off or defaulted, the repository name must be lower-case, and
the normalised string is parsed. -/
def parseNormalizedNamed (s : List Char) : Except String Reference :=
  if isIdentifier s then
    .error ("invalid repository name (" ++ String.mk s ++
      "), cannot specify 64-byte hexadecimal strings")
  else
    let (domain, remainder) := splitDockerDomain s
    let remoteName : List Char :=
      match splitAtChar ':' remainder with
      | some (a, _) => a
      | none => remainder
    if remoteName.map Char.toLower ≠ remoteName then
      .error "invalid reference format: repository name must be lowercase"
    else parseReference domain remainder

/-- Function `ParseAnyReference` of the `reference/docker` package: a 64-digit
hexadecimal identifier, a full digest, or a familiar name. -/
def parseAnyReference (s : String) : Except String Reference :=
  if isIdentifier s.data then .ok (.digestReference ("sha256:" ++ s))
  else
    match digestParse s.data with
    | .ok _ => .ok (.digestReference s)
    | .error _ => parseNormalizedNamed s.data

/-- Control character test of `url.Parse` (`stringContainsCTLByte`). -/
def isCTL (c : Char) : Bool := c.toNat < 32 || c.toNat = 127

/-- Function `getScheme` of `net/url`: the scheme before the first `:`, when
what stands before it is a letter followed by letters, digits, `+`, `-`, `.`;
`acc` holds the scheme read so far, reversed. -/
def getScheme (raw : List Char) (acc : List Char) :
    List Char → Except String (List Char × List Char)
  | [] => .ok ([], raw)
  | c :: cs =>
    if c.isAlpha then getScheme raw (c :: acc) cs
    else if c.isDigit ∨ c = '+' ∨ c = '-' ∨ c = '.' then
      if acc = [] then .ok ([], raw) else getScheme raw (c :: acc) cs
    else if c = ':' then
      if acc = [] then .error "missing protocol scheme" else .ok (acc.reverse, cs)
    else .ok ([], raw)

/-- The characters `net/url` accepts unescaped in a host (`shouldEscape` in
host mode), for ASCII. -/
def hostCharOk (c : Char) : Bool :=
  c.isAlphanum || "-_.~!$&()*+,;=:[]<>".data.contains c || c.toNat = 39 || c.toNat = 34 ||
  decide (128 ≤ c.toNat)

/-- The characters `net/url` accepts in user information (`validUserinfo`). -/
def userinfoCharOk (c : Char) : Bool :=
  c.isAlphanum || "-._:~!$&()*+,;=%@".data.contains c || c.toNat = 39

/-- Function `parseHost` of `net/url`: what follows the last `:` must be
digits, and every character must be one a host accepts. -/
def parseHost (host : List Char) : Except String (List Char) :=
  let portOk : Bool :=
    match splitAtLast ':' host with
    | some (_, port) => port.all Char.isDigit
    | none => true
  if ¬ portOk then
    match splitAtLast ':' host with
    | some (_, port) => .error ("invalid port \":" ++ String.mk port ++ "\" after host")
    | none => .ok host
  else
    match host.find? (fun c => ¬ hostCharOk c) with
    | some c => .error ("invalid character \"" ++ String.mk [c] ++ "\" in host name")
    | none => .ok host

/-- Function `parseAuthority` of `net/url`: the host is what follows the last
`@`; the user information before it is checked and dropped. -/
def parseAuthority (authority : List Char) : Except String (List Char) :=
  match splitAtLast '@' authority with
  | none => parseHost authority
  | some (userinfo, host) =>
    match parseHost host with
    | .error err => .error err
    | .ok h =>
      if userinfo.all userinfoCharOk then .ok h else .error "net/url: invalid userinfo"

/-- Function `parse` of `net/url` (not via a request) on a string without
fragment. The result has an empty fragment. -/
def parseURL (raw : List Char) : Except String URL :=
  if raw.any isCTL then .error "net/url: invalid control character in URL"
  else if raw = ['*'] then .ok ⟨"", "", "", "*", "", ""⟩
  else
    match getScheme raw [] raw with
    | .error err => .error err
    | .ok (scheme, rest) =>
      let scheme := String.mk (scheme.map Char.toLower)
      let (rest, query) : List Char × List Char :=
        if rest.getLast? = some '?' ∧ rest.count '?' = 1 then (rest.dropLast, [])
        else match splitAtChar '?' rest with
          | some (a, b) => (a, b)
          | none => (rest, [])
      if rest.head? ≠ some '/' ∧ scheme ≠ "" then
        .ok ⟨scheme, String.mk rest, "", "", String.mk query, ""⟩
      else if rest.head? ≠ some '/' ∧
          ((splitOnChar '/' rest).head?.getD []).contains ':' then
        .error "first path segment in URL cannot contain colon"
      else
        match rest with
        | '/' :: '/' :: afterSlashes =>
          if scheme ≠ "" ∨ afterSlashes.head? ≠ some '/' then
            let (authority, path) : List Char × List Char :=
              match splitAtChar '/' afterSlashes with
              | some (a, b) => (a, '/' :: b)
              | none => (afterSlashes, [])
            match parseAuthority authority with
            | .error err => .error err
            | .ok host => .ok ⟨scheme, "", String.mk host, String.mk path, String.mk query, ""⟩
          else .ok ⟨scheme, "", "", String.mk rest, String.mk query, ""⟩
        | _ => .ok ⟨scheme, "", "", String.mk rest, String.mk query, ""⟩

/-- Function `url.Parse`: the fragment after the first `#` is cut off, the
rest is parsed, and an error is wrapped as `parse "<url>": <error>`. -/
def urlParse (s : String) : Except String URL :=
  let (u, frag) : List Char × List Char :=
    match splitAtChar '#' s.data with
    | some (a, b) => (a, b)
    | none => (s.data, [])
  match parseURL u with
  | .error err => .error ("parse \"" ++ String.mk u ++ "\": " ++ err)
  | .ok url => .ok ⟨url.scheme, url.rootless, url.host, url.path, url.rawQuery, String.mk frag⟩

/-- A small registry: what `Resolve` answers for each canonical reference. -/
def demoResolve (ref : String) : Except String (String × Descriptor) :=
  if ref = "docker.io/library/app:latest" then
    .ok ("docker.io/library/app", ⟨MediaTypeImageManifest, "sha256:m1", 7⟩)
  else if ref = "docker.io/library/app:1.0" then
    .ok ("docker.io/library/app", ⟨MediaTypeDockerSchema2Manifest, "sha256:m1", 7⟩)
  else if ref = "docker.io/library/multi:latest" then
    .ok ("docker.io/library/multi", ⟨MediaTypeImageIndex, "sha256:i1", 9⟩)
  else if ref = "docker.io/library/hollow:latest" then
    .ok ("docker.io/library/hollow", ⟨MediaTypeDockerSchema2ManifestList, "sha256:i0", 9⟩)
  else if ref = "docker.io/library/blob:latest" then
    .ok ("docker.io/library/blob", ⟨"application/octet-stream", "sha256:b1", 3⟩)
  else if ref = "docker.io/library/broken:latest" then
    .ok ("docker.io/library/broken", ⟨MediaTypeImageManifest, "sha256:m2", 7⟩)
  else if ref = "docker.io/library/brokenlist:latest" then
    .ok ("docker.io/library/brokenlist", ⟨MediaTypeImageIndex, "sha256:i2", 9⟩)
  else .error "not found"

/-- The small registry: the body stored under each digest. -/
def demoContent (digest : String) : Except String String :=
  if digest = "sha256:m1" then .ok "body-m1"
  else if digest = "sha256:i1" then .ok "body-i1"
  else if digest = "sha256:i0" then .ok "body-i0"
  else if digest = "sha256:i2" then .ok "body-i2"
  else .error "blob unknown"

/-- The small registry as a resolver: every name has a fetcher, and a fetch
answers by digest. -/
def demoResolver : Resolver :=
  ⟨demoResolve, fun _ => .ok ⟨fun desc => demoContent desc.digest⟩⟩

/-- What the manifest decoder makes of the bodies of the small registry. -/
def demoDecodeManifest (body : String) : Except String Manifest :=
  if body = "body-m1" then .ok ⟨⟨"application/vnd.oci.image.config.v1+json", "sha256:c1", 2⟩, []⟩
  else .error "unexpected end of JSON input"

/-- What the index decoder makes of the bodies of the small registry: `i1` has
four entries, one with an empty digest and one repeated; `i0` has a single
entry with an empty digest. -/
def demoDecodeIndex (body : String) : Except String Index :=
  if body = "body-i1" then
    .ok ⟨[⟨MediaTypeImageManifest, "sha256:a", 7⟩, ⟨MediaTypeImageManifest, "", 0⟩,
          ⟨MediaTypeImageManifest, "sha256:b", 7⟩, ⟨MediaTypeImageManifest, "sha256:a", 7⟩]⟩
  else if body = "body-i0" then .ok ⟨[⟨MediaTypeImageManifest, "", 0⟩]⟩
  else .error "unexpected end of JSON input"

/-- The concrete world: the small registry, with the proxy variable unset. -/
def demoWorld : World :=
  ⟨parseAnyReference, fun _ => "", urlParse, fun _ => demoResolver,
    demoDecodeManifest, demoDecodeIndex⟩

/-- The concrete world with `DOCKERHUB_PUBLIC_PROXY` set to `proxy`. -/
def proxyWorld (proxy : String) : World :=
  ⟨parseAnyReference, fun v => if v = "DOCKERHUB_PUBLIC_PROXY" then proxy else "", urlParse,
    fun _ => demoResolver, demoDecodeManifest, demoDecodeIndex⟩

/-! ## Predicates of the statements -/

/-- One of the two single-manifest media types (registry.go 35 and 83). -/
abbrev isManifestType (mediaType : String) : Prop :=
  mediaType = MediaTypeDockerSchema2Manifest ∨ mediaType = MediaTypeImageManifest

/-- One of the two index / manifest-list media types (registry.go 87). -/
abbrev isIndexType (mediaType : String) : Prop :=
  mediaType = MediaTypeDockerSchema2ManifestList ∨ mediaType = MediaTypeImageIndex

/-- Both caches of `t` are exactly those of `s`. -/
def State.sameCaches (s t : State) : Prop :=
  t.registryImageIdCache = s.registryImageIdCache ∧
  t.registryManifestListCache = s.registryManifestListCache

/-- A failure at one stage of an operation: normalising the reference,
resolving it, or, for a descriptor of an accepted media type whose digest the
cache does not hold, obtaining the fetcher, fetching, or decoding the body. -/
inductive StageFailure {α β : Type} (W : World) (image username password : String)
    (accepted : String → Prop) (cache : Cache β) (decode : String → Except String α) :
    Prop where
  | normalize (err : String)
      (h : fetchRegistryResolveHelper W image username password = .error err)
  | resolve (ref : String) (resolver : Resolver) (err : String)
      (h : fetchRegistryResolveHelper W image username password = .ok (ref, resolver))
      (hr : resolver.resolve ref = .error err)
  | fetcher (ref : String) (resolver : Resolver) (name : String) (desc : Descriptor)
      (err : String)
      (h : fetchRegistryResolveHelper W image username password = .ok (ref, resolver))
      (hr : resolver.resolve ref = .ok (name, desc))
      (ha : accepted desc.mediaType) (hc : cache desc.digest = none)
      (hf : resolver.fetcher name = .error err)
  | fetch (ref : String) (resolver : Resolver) (name : String) (desc : Descriptor)
      (fetcher : Fetcher) (err : String)
      (h : fetchRegistryResolveHelper W image username password = .ok (ref, resolver))
      (hr : resolver.resolve ref = .ok (name, desc))
      (ha : accepted desc.mediaType) (hc : cache desc.digest = none)
      (hf : resolver.fetcher name = .ok fetcher) (hb : fetcher.fetch desc = .error err)
  | decode (ref : String) (resolver : Resolver) (name : String) (desc : Descriptor)
      (fetcher : Fetcher) (body err : String)
      (h : fetchRegistryResolveHelper W image username password = .ok (ref, resolver))
      (hr : resolver.resolve ref = .ok (name, desc))
      (ha : accepted desc.mediaType) (hc : cache desc.digest = none)
      (hf : resolver.fetcher name = .ok fetcher) (hb : fetcher.fetch desc = .ok body)
      (hd : decode body = .error err)

/-- The number of `Fetch` calls in a record of registry calls. -/
def countFetch (calls : List Event) : Nat :=
  calls.countP (fun e => match e with
    | .fetch _ => true
    | _ => false)

/-- The digests of the entries of an index that have a non-empty digest, in the
order of the index (what the specification calls the decoded list). -/
def nonEmptyDigests (manifests : List Descriptor) : List String :=
  (manifests.map (fun m => m.digest)).filter (fun d => d ≠ "")

/-- The canonical string as the specification words it: the input, with
`:latest` appended when the parsed reference has neither tag nor digest. -/
def specCanonical (image : String) (parsed : Reference) : String :=
  match parsed with
  | .repository _ _ => image ++ ":latest"
  | _ => image

/-- The canonical string the helper returns, or the error. -/
def canonicalRef (W : World) (image username password : String) : Except String String :=
  match fetchRegistryResolveHelper W image username password with
  | .ok (ref, _) => .ok ref
  | .error err => .error err

/-- One call of either operation. -/
inductive Call where
  | getImageId (image username password : String)
  | getManifestListDigests (image username password : String)
deriving DecidableEq, Repr

/-- The state after one call made in world `W`. -/
def step (W : World) (c : Call) (s : State) : State :=
  match c with
  | .getImageId image username password =>
    (fetchRegistryImageId W image username password s).2
  | .getManifestListDigests image username password =>
    (fetchRegistryManiestListDigests W image username password s).2

/-- The state after a sequence of calls, each made in its own world. -/
def run (calls : List (World × Call)) (s : State) : State :=
  calls.foldl (fun s wc => step wc.1 wc.2 s) s

/-- A content-addressed registry: whatever resolver and fetcher is used, a
successful fetch of a descriptor gives the body `content` assigns to its
digest. -/
def ContentAddressed (content : String → String) (W : World) : Prop :=
  ∀ (opts : ResolverOptions) (name : String) (fetcher : Fetcher) (desc : Descriptor)
    (body : String),
    (W.newResolver opts).fetcher name = .ok fetcher → fetcher.fetch desc = .ok body →
    body = content desc.digest

/-- Every cache entry is non-empty and is what decoding the body stored under
its key gives. -/
def CacheValid (content : String → String) (decodeManifest : String → Except String Manifest)
    (decodeIndex : String → Except String Index) (s : State) : Prop :=
  (∀ d v, s.registryImageIdCache d = some v →
    v ≠ "" ∧ ∃ m, decodeManifest (content d) = .ok m ∧ m.config.digest = v) ∧
  (∀ d l, s.registryManifestListCache d = some l →
    l ≠ [] ∧ ∃ idx, decodeIndex (content d) = .ok idx ∧ nonEmptyDigests idx.manifests = l)

/-- Every entry of the caches of `s` is an entry, with the same value, of the
caches of `t`. -/
def State.entriesKept (s t : State) : Prop :=
  (∀ d v, s.registryImageIdCache d = some v → t.registryImageIdCache d = some v) ∧
  (∀ d l, s.registryManifestListCache d = some l → t.registryManifestListCache d = some l)

/-- The body stored under each digest of the small registry, the empty body
for a digest it does not hold. -/
def demoBody (digest : String) : String :=
  match demoContent digest with
  | .ok body => body
  | .error _ => ""

/-- Three calls on the small registry. -/
def demoCalls : List (World × Call) :=
  [(demoWorld, .getImageId "app" "u" "p"),
   (demoWorld, .getManifestListDigests "multi" "u" "p"),
   (demoWorld, .getImageId "app:1.0" "u" "p")]

/-! ## Auxiliary lemmas -/

theorem manifestType_ne_indexType {mediaType : String} (h : isIndexType mediaType) :
    ¬ isManifestType mediaType := by
  rcases h with h | h <;> subst h <;> decide

theorem record_sameCaches (s : State) (e : Event) : s.sameCaches (s.record e) :=
  ⟨rfl, rfl⟩

theorem foldl_collect (manifests : List Descriptor) (acc : List String) :
    manifests.foldl
      (fun digests manifest =>
        if manifest.digest ≠ "" then digests ++ [manifest.digest] else digests) acc =
      acc ++ nonEmptyDigests manifests := by
  induction manifests generalizing acc with
  | nil => simp [nonEmptyDigests]
  | cons m ms ih =>
    rw [List.foldl_cons, ih]
    by_cases hm : m.digest = "" <;> simp [nonEmptyDigests, hm]

theorem collectDigests_eq (manifests : List Descriptor) :
    collectDigests manifests = nonEmptyDigests manifests := by
  unfold collectDigests
  rw [foldl_collect, List.nil_append]

theorem not_manifest_gate {mediaType : String} (ha : isManifestType mediaType) :
    ¬ (mediaType ≠ MediaTypeDockerSchema2Manifest ∧ mediaType ≠ MediaTypeImageManifest) := by
  rcases ha with ha | ha <;> simp [ha]

theorem not_index_gate {mediaType : String} (ha : isIndexType mediaType) :
    ¬ (mediaType ≠ MediaTypeDockerSchema2ManifestList ∧ mediaType ≠ MediaTypeImageIndex) := by
  rcases ha with ha | ha <;> simp [ha]

/-- A cache hit of `fetchRegistryImageId`: the entry is returned after the
resolve alone. -/
theorem imageId_hit (W : World) (image username password : String) (s : State)
    (ref : String) (resolver : Resolver) (name : String) (desc : Descriptor) (id : String)
    (h : fetchRegistryResolveHelper W image username password = .ok (ref, resolver))
    (hr : resolver.resolve ref = .ok (name, desc))
    (ha : isManifestType desc.mediaType)
    (hc : s.registryImageIdCache desc.digest = some id) :
    fetchRegistryImageId W image username password s = (id, s.record (.resolve ref)) := by
  simp [fetchRegistryImageId, h, hr, not_manifest_gate ha, hc, State.record]

/-- A cache miss of `fetchRegistryManiestListDigests` with successful fetch and
decode: the collected digests are returned, and stored when there are any. -/
theorem manifestList_miss (W : World) (image username password : String) (s : State)
    (ref : String) (resolver : Resolver) (name : String) (desc : Descriptor)
    (fetcher : Fetcher) (body : String) (manifestList : Index)
    (h : fetchRegistryResolveHelper W image username password = .ok (ref, resolver))
    (hr : resolver.resolve ref = .ok (name, desc))
    (ha : isIndexType desc.mediaType)
    (hc : s.registryManifestListCache desc.digest = none)
    (hf : resolver.fetcher name = .ok fetcher)
    (hb : fetcher.fetch desc = .ok body)
    (hd : W.decodeIndex body = .ok manifestList) :
    fetchRegistryManiestListDigests W image username password s =
      (nonEmptyDigests manifestList.manifests,
        if nonEmptyDigests manifestList.manifests = [] then
          ((s.record (.resolve ref)).record (.fetcher name)).record (.fetch desc)
        else
          (((s.record (.resolve ref)).record (.fetcher name)).record
            (.fetch desc)).setManifestList desc.digest
              (nonEmptyDigests manifestList.manifests)) := by
  have hm : ¬ (desc.mediaType = MediaTypeDockerSchema2Manifest ∨
      desc.mediaType = MediaTypeImageManifest) := manifestType_ne_indexType ha
  by_cases hl : nonEmptyDigests manifestList.manifests = []
  · simp [fetchRegistryManiestListDigests, h, hr, hm, not_index_gate ha, hc, hf, hb, hd,
      collectDigests_eq, hl, State.record]
  · have hpos : 0 < (nonEmptyDigests manifestList.manifests).length :=
      List.length_pos.mpr hl
    simp [fetchRegistryManiestListDigests, h, hr, hm, not_index_gate ha, hc, hf, hb, hd,
      collectDigests_eq, hl, hpos, State.record]

/-- After a call of `fetchRegistryImageId` on a single-manifest descriptor that
returned a non-empty value, the image-id cache holds that value under the
digest, and the call made at most one fetch. -/
theorem imageId_nonempty_cached (W : World) (image username password : String) (s : State)
    (ref : String) (resolver : Resolver) (name : String) (desc : Descriptor)
    (h : fetchRegistryResolveHelper W image username password = .ok (ref, resolver))
    (hr : resolver.resolve ref = .ok (name, desc))
    (ha : isManifestType desc.mediaType)
    (hne : (fetchRegistryImageId W image username password s).1 ≠ "") :
    (fetchRegistryImageId W image username password s).2.registryImageIdCache desc.digest =
      some (fetchRegistryImageId W image username password s).1 ∧
    countFetch (fetchRegistryImageId W image username password s).2.calls ≤
      countFetch s.calls + 1 := by
  cases hc : s.registryImageIdCache desc.digest with
  | some id =>
    rw [imageId_hit W image username password s ref resolver name desc id h hr ha hc]
    simp [State.record, hc, countFetch]
  | none =>
    revert hne
    cases hf : resolver.fetcher name with
    | error e => simp [fetchRegistryImageId, h, hr, not_manifest_gate ha, hc, hf, State.record]
    | ok fetcher =>
      cases hb : fetcher.fetch desc with
      | error e =>
        simp [fetchRegistryImageId, h, hr, not_manifest_gate ha, hc, hf, hb, State.record]
      | ok body =>
        cases hd : W.decodeManifest body with
        | error e =>
          simp [fetchRegistryImageId, h, hr, not_manifest_gate ha, hc, hf, hb, hd,
            State.record]
        | ok manifest =>
          by_cases hid : manifest.config.digest = ""
          · simp [fetchRegistryImageId, h, hr, not_manifest_gate ha, hc, hf, hb, hd, hid,
              State.record]
          · simp [fetchRegistryImageId, h, hr, not_manifest_gate ha, hc, hf, hb, hd, hid,
              State.record, State.setImageId, Cache.insert, countFetch]

theorem helper_resolver (W : World) (image username password ref : String)
    (resolver : Resolver)
    (h : fetchRegistryResolveHelper W image username password = .ok (ref, resolver)) :
    resolver = W.newResolver (resolverOptions W username password) := by
  unfold fetchRegistryResolveHelper at h
  cases hp : W.parseAnyReference image with
  | error e => simp [hp] at h
  | ok r =>
    simp only [hp, Except.ok.injEq, Prod.mk.injEq] at h
    exact h.2.symm

/-- The caches after `fetchRegistryImageId`: as before, or the image-id cache
gained, under a key it did not hold, the non-empty config digest decoded from a
fetched body. -/
theorem imageId_caches (W : World) (image username password : String) (s : State) :
    s.sameCaches (fetchRegistryImageId W image username password s).2 ∨
    ∃ (name : String) (desc : Descriptor) (fetcher : Fetcher) (body : String)
      (manifest : Manifest),
      (W.newResolver (resolverOptions W username password)).fetcher name = .ok fetcher ∧
      fetcher.fetch desc = .ok body ∧ W.decodeManifest body = .ok manifest ∧
      manifest.config.digest ≠ "" ∧ s.registryImageIdCache desc.digest = none ∧
      (fetchRegistryImageId W image username password s).2.registryImageIdCache =
        s.registryImageIdCache.insert desc.digest manifest.config.digest ∧
      (fetchRegistryImageId W image username password s).2.registryManifestListCache =
        s.registryManifestListCache := by
  cases h : fetchRegistryResolveHelper W image username password with
  | error e => left; simp [fetchRegistryImageId, h, State.sameCaches]
  | ok pr =>
    obtain ⟨ref, resolver⟩ := pr
    have hres := helper_resolver W image username password ref resolver h
    cases hr : resolver.resolve ref with
    | error e => left; simp [fetchRegistryImageId, h, hr, State.sameCaches, State.record]
    | ok nd =>
      obtain ⟨name, desc⟩ := nd
      by_cases ha : isManifestType desc.mediaType
      · cases hc : s.registryImageIdCache desc.digest with
        | some id =>
          left
          rw [imageId_hit W image username password s ref resolver name desc id h hr ha hc]
          exact record_sameCaches s _
        | none =>
          cases hf : resolver.fetcher name with
          | error e =>
            left
            simp [fetchRegistryImageId, h, hr, not_manifest_gate ha, hc, hf,
              State.sameCaches, State.record]
          | ok fetcher =>
            cases hb : fetcher.fetch desc with
            | error e =>
              left
              simp [fetchRegistryImageId, h, hr, not_manifest_gate ha, hc, hf, hb,
                State.sameCaches, State.record]
            | ok body =>
              cases hd : W.decodeManifest body with
              | error e =>
                left
                simp [fetchRegistryImageId, h, hr, not_manifest_gate ha, hc, hf, hb, hd,
                  State.sameCaches, State.record]
              | ok manifest =>
                by_cases hid : manifest.config.digest = ""
                · left
                  simp [fetchRegistryImageId, h, hr, not_manifest_gate ha, hc, hf, hb, hd,
                    hid, State.sameCaches, State.record]
                · right
                  refine ⟨name, desc, fetcher, body, manifest, hres ▸ hf, hb, hd, hid, hc,
                    ?_, ?_⟩ <;>
                  simp [fetchRegistryImageId, h, hr, not_manifest_gate ha, hc, hf, hb, hd,
                    hid, State.record, State.setImageId]
      · left
        have hm : desc.mediaType ≠ MediaTypeDockerSchema2Manifest ∧
            desc.mediaType ≠ MediaTypeImageManifest :=
          ⟨fun e => ha (Or.inl e), fun e => ha (Or.inr e)⟩
        simp [fetchRegistryImageId, h, hr, hm, State.sameCaches, State.record]

/-- The caches after `fetchRegistryManiestListDigests`: as before, or the
manifest-list cache gained, under a key it did not hold, the non-empty list
decoded from a fetched body. -/
theorem manifestList_caches (W : World) (image username password : String) (s : State) :
    s.sameCaches (fetchRegistryManiestListDigests W image username password s).2 ∨
    ∃ (name : String) (desc : Descriptor) (fetcher : Fetcher) (body : String)
      (manifestList : Index),
      (W.newResolver (resolverOptions W username password)).fetcher name = .ok fetcher ∧
      fetcher.fetch desc = .ok body ∧ W.decodeIndex body = .ok manifestList ∧
      nonEmptyDigests manifestList.manifests ≠ [] ∧
      s.registryManifestListCache desc.digest = none ∧
      (fetchRegistryManiestListDigests W image username password s).2.registryImageIdCache =
        s.registryImageIdCache ∧
      (fetchRegistryManiestListDigests W image username password
          s).2.registryManifestListCache =
        s.registryManifestListCache.insert desc.digest
          (nonEmptyDigests manifestList.manifests) := by
  cases h : fetchRegistryResolveHelper W image username password with
  | error e => left; simp [fetchRegistryManiestListDigests, h, State.sameCaches]
  | ok pr =>
    obtain ⟨ref, resolver⟩ := pr
    have hres := helper_resolver W image username password ref resolver h
    cases hr : resolver.resolve ref with
    | error e =>
      left; simp [fetchRegistryManiestListDigests, h, hr, State.sameCaches, State.record]
    | ok nd =>
      obtain ⟨name, desc⟩ := nd
      by_cases hm : isManifestType desc.mediaType
      · left
        have hm1 : desc.mediaType = MediaTypeDockerSchema2Manifest ∨
            desc.mediaType = MediaTypeImageManifest := hm
        simp [fetchRegistryManiestListDigests, h, hr, hm1, State.sameCaches, State.record]
      · have hm2 : ¬ (desc.mediaType = MediaTypeDockerSchema2Manifest ∨
            desc.mediaType = MediaTypeImageManifest) := hm
        by_cases ha : isIndexType desc.mediaType
        · cases hc : s.registryManifestListCache desc.digest with
          | some l =>
            left
            simp [fetchRegistryManiestListDigests, h, hr, hm2, not_index_gate ha, hc,
              State.sameCaches, State.record]
          | none =>
            cases hf : resolver.fetcher name with
            | error e =>
              left
              simp [fetchRegistryManiestListDigests, h, hr, hm2, not_index_gate ha, hc, hf,
                State.sameCaches, State.record]
            | ok fetcher =>
              cases hb : fetcher.fetch desc with
              | error e =>
                left
                simp [fetchRegistryManiestListDigests, h, hr, hm2, not_index_gate ha, hc,
                  hf, hb, State.sameCaches, State.record]
              | ok body =>
                cases hd : W.decodeIndex body with
                | error e =>
                  left
                  simp [fetchRegistryManiestListDigests, h, hr, hm2, not_index_gate ha, hc,
                    hf, hb, hd, State.sameCaches, State.record]
                | ok manifestList =>
                  have hmiss := manifestList_miss W image username password s ref resolver
                    name desc fetcher body manifestList h hr ha hc hf hb hd
                  by_cases hl : nonEmptyDigests manifestList.manifests = []
                  · left
                    rw [hmiss]
                    simp [hl, State.sameCaches, State.record]
                  · right
                    refine ⟨name, desc, fetcher, body, manifestList, hres ▸ hf, hb, hd, hl,
                      hc, ?_, ?_⟩ <;>
                    · rw [hmiss]
                      simp [hl, State.record, State.setManifestList]
        · left
          have hi : desc.mediaType ≠ MediaTypeDockerSchema2ManifestList ∧
              desc.mediaType ≠ MediaTypeImageIndex :=
            ⟨fun e => ha (Or.inl e), fun e => ha (Or.inr e)⟩
          simp [fetchRegistryManiestListDigests, h, hr, hm2, hi, State.sameCaches,
            State.record]

/-- One call keeps the caches valid and keeps every entry they hold. -/
theorem step_valid (content : String → String)
    (W : World) (c : Call) (s : State) (hw : ContentAddressed content W)
    (hs : CacheValid content W.decodeManifest W.decodeIndex s) :
    CacheValid content W.decodeManifest W.decodeIndex (step W c s) ∧
    s.entriesKept (step W c s) := by
  cases c with
  | getImageId image username password =>
    rcases imageId_caches W image username password s with hsame | hnew
    · obtain ⟨h1, h2⟩ := hsame
      simp only [step, CacheValid, State.entriesKept, h1, h2]
      exact ⟨hs, fun _ _ h => h, fun _ _ h => h⟩
    · obtain ⟨name, desc, fetcher, body, manifest, hf, hb, hd, hid, hc, h1, h2⟩ := hnew
      have hbody := hw _ name fetcher desc body hf hb
      simp only [step, CacheValid, State.entriesKept, h1, h2]
      refine ⟨⟨?_, hs.2⟩, ?_, fun _ _ h => h⟩
      · intro d v hv
        by_cases hd' : d = desc.digest
        · subst hd'
          simp only [Cache.insert, if_true, Option.some.injEq] at hv
          subst hv
          exact ⟨hid, manifest, hbody ▸ hd, rfl⟩
        · simp only [Cache.insert, hd', if_false] at hv
          exact hs.1 d v hv
      · intro d v hv
        by_cases hd' : d = desc.digest
        · subst hd'
          rw [hc] at hv
          exact absurd hv (by simp)
        · simp only [Cache.insert, hd', if_false]
          exact hv
  | getManifestListDigests image username password =>
    rcases manifestList_caches W image username password s with hsame | hnew
    · obtain ⟨h1, h2⟩ := hsame
      simp only [step, CacheValid, State.entriesKept, h1, h2]
      exact ⟨hs, fun _ _ h => h, fun _ _ h => h⟩
    · obtain ⟨name, desc, fetcher, body, manifestList, hf, hb, hd, hl, hc, h1, h2⟩ := hnew
      have hbody := hw _ name fetcher desc body hf hb
      simp only [step, CacheValid, State.entriesKept, h1, h2]
      refine ⟨⟨hs.1, ?_⟩, fun _ _ h => h, ?_⟩
      · intro d l hv
        by_cases hd' : d = desc.digest
        · subst hd'
          simp only [Cache.insert, if_true, Option.some.injEq] at hv
          subst hv
          exact ⟨hl, manifestList, hbody ▸ hd, rfl⟩
        · simp only [Cache.insert, hd', if_false] at hv
          exact hs.2 d l hv
      · intro d l hv
        by_cases hd' : d = desc.digest
        · subst hd'
          rw [hc] at hv
          exact absurd hv (by simp)
        · simp only [Cache.insert, hd', if_false]
          exact hv

theorem run_append (pre : List (World × Call)) (wc : World × Call) (s : State) :
    run (pre ++ [wc]) s = step wc.1 wc.2 (run pre s) := by
  simp [run, List.foldl_append]

theorem run_valid (content : String → String)
    (decodeManifest : String → Except String Manifest)
    (decodeIndex : String → Except String Index) (calls : List (World × Call))
    (hw : ∀ wc ∈ calls, ContentAddressed content wc.1 ∧
      wc.1.decodeManifest = decodeManifest ∧ wc.1.decodeIndex = decodeIndex) :
    CacheValid content decodeManifest decodeIndex (run calls State.init) := by
  induction calls using List.reverseRecOn with
  | nil =>
    constructor <;> intro d v hv <;> simp [run, State.init, Cache.empty] at hv
  | append_singleton pre wc ih =>
    have hpre := ih (fun x hx => hw x (List.mem_append_left _ hx))
    obtain ⟨hca, hdm, hdi⟩ := hw wc (List.mem_append_right _ (List.mem_singleton_self wc))
    rw [run_append]
    subst hdm hdi
    exact (step_valid content wc.1 wc.2 _ hca hpre).1

theorem demo_contentAddressed : ContentAddressed demoBody demoWorld := by
  intro opts name fetcher desc body hf hb
  simp only [demoWorld, demoResolver, Except.ok.injEq] at hf
  subst hf
  simp only at hb
  simp [demoBody, hb]

/-- A cache hit of `fetchRegistryManiestListDigests`: the entry is returned
after the resolve alone. -/
theorem manifestList_hit (W : World) (image username password : String) (s : State)
    (ref : String) (resolver : Resolver) (name : String) (desc : Descriptor)
    (l : List String)
    (h : fetchRegistryResolveHelper W image username password = .ok (ref, resolver))
    (hr : resolver.resolve ref = .ok (name, desc))
    (ha : isIndexType desc.mediaType)
    (hc : s.registryManifestListCache desc.digest = some l) :
    fetchRegistryManiestListDigests W image username password s =
      (l, s.record (.resolve ref)) := by
  have hm : ¬ (desc.mediaType = MediaTypeDockerSchema2Manifest ∨
      desc.mediaType = MediaTypeImageManifest) := manifestType_ne_indexType ha
  simp [fetchRegistryManiestListDigests, h, hr, hm, not_index_gate ha, hc, State.record]

/-- A cache miss of `fetchRegistryImageId` with successful fetch and decode
returns the decoded config digest. -/
theorem imageId_miss_result (W : World) (image username password : String) (s : State)
    (ref : String) (resolver : Resolver) (name : String) (desc : Descriptor)
    (fetcher : Fetcher) (body : String) (manifest : Manifest)
    (h : fetchRegistryResolveHelper W image username password = .ok (ref, resolver))
    (hr : resolver.resolve ref = .ok (name, desc))
    (ha : isManifestType desc.mediaType)
    (hc : s.registryImageIdCache desc.digest = none)
    (hf : resolver.fetcher name = .ok fetcher)
    (hb : fetcher.fetch desc = .ok body)
    (hd : W.decodeManifest body = .ok manifest) :
    (fetchRegistryImageId W image username password s).1 = manifest.config.digest := by
  by_cases hid : manifest.config.digest = ""
  · simp [fetchRegistryImageId, h, hr, not_manifest_gate ha, hc, hf, hb, hd, hid,
      State.record]
  · simp [fetchRegistryImageId, h, hr, not_manifest_gate ha, hc, hf, hb, hd, hid,
      State.record]

/-! ## Theorems -/

/-- C1. Soft failure, for both operations: when normalising the reference
fails, or the resolve fails, or (for a descriptor of a media type the operation
fetches, on a cache miss) obtaining the fetcher, the fetch or the JSON decode
fails, `fetchRegistryImageId` returns the empty string and
`fetchRegistryManiestListDigests` returns the nil (empty) list, and both caches
are exactly as before the call. Both functions are total: no error leaves
them. -/
theorem soft_failure (W : World) (image username password : String) (s : State) :
    (StageFailure W image username password isManifestType s.registryImageIdCache
        W.decodeManifest →
      (fetchRegistryImageId W image username password s).1 = "" ∧
      s.sameCaches (fetchRegistryImageId W image username password s).2) ∧
    (StageFailure W image username password isIndexType s.registryManifestListCache
        W.decodeIndex →
      (fetchRegistryManiestListDigests W image username password s).1 = [] ∧
      s.sameCaches (fetchRegistryManiestListDigests W image username password s).2) := by
  constructor
  · intro hfail
    cases hfail with
    | normalize err h => simp [fetchRegistryImageId, h, State.sameCaches]
    | resolve ref resolver err h hr =>
      simp [fetchRegistryImageId, h, hr, State.sameCaches, State.record]
    | fetcher ref resolver name desc err h hr ha hc hf =>
      have hm : ¬ (desc.mediaType ≠ MediaTypeDockerSchema2Manifest ∧
          desc.mediaType ≠ MediaTypeImageManifest) := by
        rcases ha with ha | ha <;> simp [ha]
      simp [fetchRegistryImageId, h, hr, hm, hc, hf, State.sameCaches, State.record]
    | fetch ref resolver name desc fetcher err h hr ha hc hf hb =>
      have hm : ¬ (desc.mediaType ≠ MediaTypeDockerSchema2Manifest ∧
          desc.mediaType ≠ MediaTypeImageManifest) := by
        rcases ha with ha | ha <;> simp [ha]
      simp [fetchRegistryImageId, h, hr, hm, hc, hf, hb, State.sameCaches, State.record]
    | decode ref resolver name desc fetcher body err h hr ha hc hf hb hd =>
      have hm : ¬ (desc.mediaType ≠ MediaTypeDockerSchema2Manifest ∧
          desc.mediaType ≠ MediaTypeImageManifest) := by
        rcases ha with ha | ha <;> simp [ha]
      simp [fetchRegistryImageId, h, hr, hm, hc, hf, hb, hd, State.sameCaches, State.record]
  · intro hfail
    cases hfail with
    | normalize err h => simp [fetchRegistryManiestListDigests, h, State.sameCaches]
    | resolve ref resolver err h hr =>
      simp [fetchRegistryManiestListDigests, h, hr, State.sameCaches, State.record]
    | fetcher ref resolver name desc err h hr ha hc hf =>
      have hm : ¬ (desc.mediaType = MediaTypeDockerSchema2Manifest ∨
          desc.mediaType = MediaTypeImageManifest) := manifestType_ne_indexType ha
      have hi : ¬ (desc.mediaType ≠ MediaTypeDockerSchema2ManifestList ∧
          desc.mediaType ≠ MediaTypeImageIndex) := by
        rcases ha with ha | ha <;> simp [ha]
      simp [fetchRegistryManiestListDigests, h, hr, hm, hi, hc, hf, State.sameCaches,
        State.record]
    | fetch ref resolver name desc fetcher err h hr ha hc hf hb =>
      have hm : ¬ (desc.mediaType = MediaTypeDockerSchema2Manifest ∨
          desc.mediaType = MediaTypeImageManifest) := manifestType_ne_indexType ha
      have hi : ¬ (desc.mediaType ≠ MediaTypeDockerSchema2ManifestList ∧
          desc.mediaType ≠ MediaTypeImageIndex) := by
        rcases ha with ha | ha <;> simp [ha]
      simp [fetchRegistryManiestListDigests, h, hr, hm, hi, hc, hf, hb, State.sameCaches,
        State.record]
    | decode ref resolver name desc fetcher body err h hr ha hc hf hb hd =>
      have hm : ¬ (desc.mediaType = MediaTypeDockerSchema2Manifest ∨
          desc.mediaType = MediaTypeImageManifest) := manifestType_ne_indexType ha
      have hi : ¬ (desc.mediaType ≠ MediaTypeDockerSchema2ManifestList ∧
          desc.mediaType ≠ MediaTypeImageIndex) := by
        rcases ha with ha | ha <;> simp [ha]
      simp [fetchRegistryManiestListDigests, h, hr, hm, hi, hc, hf, hb, hd,
        State.sameCaches, State.record]

/-- C1 at concrete inputs: in the small registry the body of `broken` cannot be
fetched and the body of `brokenlist` does not decode. -/
theorem soft_failure_witness :
    ((fetchRegistryImageId demoWorld "broken" "u" "p" State.init).1 = "" ∧
      State.init.sameCaches (fetchRegistryImageId demoWorld "broken" "u" "p" State.init).2) ∧
    ((fetchRegistryManiestListDigests demoWorld "brokenlist" "u" "p" State.init).1 = [] ∧
      State.init.sameCaches
        (fetchRegistryManiestListDigests demoWorld "brokenlist" "u" "p" State.init).2) :=
  ⟨(soft_failure demoWorld "broken" "u" "p" State.init).1
      (StageFailure.fetch "docker.io/library/broken:latest" demoResolver
        "docker.io/library/broken" ⟨MediaTypeImageManifest, "sha256:m2", 7⟩
        ⟨fun desc => demoContent desc.digest⟩ "blob unknown"
        (by rfl) (by rfl) (by decide) (by rfl) (by rfl) (by rfl)),
   (soft_failure demoWorld "brokenlist" "u" "p" State.init).2
      (StageFailure.decode "docker.io/library/brokenlist:latest" demoResolver
        "docker.io/library/brokenlist" ⟨MediaTypeImageIndex, "sha256:i2", 9⟩
        ⟨fun desc => demoContent desc.digest⟩ "body-i2" "unexpected end of JSON input"
        (by rfl) (by rfl) (by decide) (by rfl) (by rfl) (by rfl) (by rfl))⟩

/-- C2. Success path of `fetchRegistryImageId`: when the reference normalises
and resolves to a descriptor of a single-manifest media type with digest `d`,
the image-id cache has no entry for `d`, and fetcher, fetch and decode succeed
with a manifest whose config digest `c` is not empty, the function returns `c`;
afterwards the image-id cache is the prior cache with `d -> c` added (every
other key as before) and the manifest-list cache is unchanged. -/
theorem imageId_success (W : World) (image username password : String) (s : State)
    (ref : String) (resolver : Resolver) (name : String) (desc : Descriptor)
    (fetcher : Fetcher) (body : String) (manifest : Manifest)
    (h : fetchRegistryResolveHelper W image username password = .ok (ref, resolver))
    (hr : resolver.resolve ref = .ok (name, desc))
    (ha : isManifestType desc.mediaType)
    (hc : s.registryImageIdCache desc.digest = none)
    (hf : resolver.fetcher name = .ok fetcher)
    (hb : fetcher.fetch desc = .ok body)
    (hd : W.decodeManifest body = .ok manifest)
    (hne : manifest.config.digest ≠ "") :
    (fetchRegistryImageId W image username password s).1 = manifest.config.digest ∧
    (fetchRegistryImageId W image username password s).2.registryImageIdCache =
      s.registryImageIdCache.insert desc.digest manifest.config.digest ∧
    (fetchRegistryImageId W image username password s).2.registryImageIdCache desc.digest =
      some manifest.config.digest ∧
    (∀ k, k ≠ desc.digest →
      (fetchRegistryImageId W image username password s).2.registryImageIdCache k =
        s.registryImageIdCache k) ∧
    (fetchRegistryImageId W image username password s).2.registryManifestListCache =
      s.registryManifestListCache := by
  have hm : ¬ (desc.mediaType ≠ MediaTypeDockerSchema2Manifest ∧
      desc.mediaType ≠ MediaTypeImageManifest) := by
    rcases ha with ha | ha <;> simp [ha]
  have hout : fetchRegistryImageId W image username password s =
      (manifest.config.digest,
        (((s.record (.resolve ref)).record (.fetcher name)).record (.fetch desc)).setImageId
          desc.digest manifest.config.digest) := by
    simp [fetchRegistryImageId, h, hr, hm, hc, hf, hb, hd, hne, State.record]
  rw [hout]
  refine ⟨rfl, rfl, ?_, ?_, rfl⟩
  · simp [State.setImageId, State.record, Cache.insert]
  · intro k hk
    simp [State.setImageId, State.record, Cache.insert, hk]

/-- C2 at a concrete input: `app` in the small registry, from empty caches. -/
theorem imageId_success_witness :
    (fetchRegistryImageId demoWorld "app" "u" "p" State.init).1 = "sha256:c1" ∧
    (fetchRegistryImageId demoWorld "app" "u" "p" State.init).2.registryImageIdCache =
      State.init.registryImageIdCache.insert "sha256:m1" "sha256:c1" ∧
    (fetchRegistryImageId demoWorld "app" "u" "p" State.init).2.registryImageIdCache
      "sha256:m1" = some "sha256:c1" ∧
    (∀ k, k ≠ "sha256:m1" →
      (fetchRegistryImageId demoWorld "app" "u" "p" State.init).2.registryImageIdCache k =
        State.init.registryImageIdCache k) ∧
    (fetchRegistryImageId demoWorld "app" "u" "p" State.init).2.registryManifestListCache =
      State.init.registryManifestListCache :=
  imageId_success demoWorld "app" "u" "p" State.init "docker.io/library/app:latest"
    demoResolver "docker.io/library/app" ⟨MediaTypeImageManifest, "sha256:m1", 7⟩
    ⟨fun desc => demoContent desc.digest⟩ "body-m1"
    ⟨⟨"application/vnd.oci.image.config.v1+json", "sha256:c1", 2⟩, []⟩
    (by rfl) (by rfl) (by decide) (by rfl) (by rfl) (by rfl) (by rfl) (by decide)

/-- C4. Media-type gate of `fetchRegistryImageId`: when the reference resolves
to a descriptor whose media type is not one of the two single-manifest types,
then for every prior state (whatever the image-id cache holds for the digest)
the function returns the empty string, the only registry call it makes is the
resolve (no fetcher, no fetch), and both caches are unchanged. -/
theorem imageId_media_gate (W : World) (image username password : String) (s : State)
    (ref : String) (resolver : Resolver) (name : String) (desc : Descriptor)
    (h : fetchRegistryResolveHelper W image username password = .ok (ref, resolver))
    (hr : resolver.resolve ref = .ok (name, desc))
    (hn : ¬ isManifestType desc.mediaType) :
    (fetchRegistryImageId W image username password s).1 = "" ∧
    (fetchRegistryImageId W image username password s).2.calls = s.calls ++ [.resolve ref] ∧
    s.sameCaches (fetchRegistryImageId W image username password s).2 := by
  have hm : desc.mediaType ≠ MediaTypeDockerSchema2Manifest ∧
      desc.mediaType ≠ MediaTypeImageManifest := by
    constructor
    · exact fun e => hn (Or.inl e)
    · exact fun e => hn (Or.inr e)
  simp [fetchRegistryImageId, h, hr, hm, State.sameCaches, State.record]

/-- C4 at a concrete input: `multi` resolves to an index, and the image-id
cache already holds an entry for the digest of that index. -/
theorem imageId_media_gate_witness :
    (fetchRegistryImageId demoWorld "multi" "u" "p"
      (State.init.setImageId "sha256:i1" "sha256:c9")).1 = "" ∧
    (fetchRegistryImageId demoWorld "multi" "u" "p"
      (State.init.setImageId "sha256:i1" "sha256:c9")).2.calls =
      (State.init.setImageId "sha256:i1" "sha256:c9").calls ++
        [.resolve "docker.io/library/multi:latest"] ∧
    (State.init.setImageId "sha256:i1" "sha256:c9").sameCaches
      (fetchRegistryImageId demoWorld "multi" "u" "p"
        (State.init.setImageId "sha256:i1" "sha256:c9")).2 :=
  imageId_media_gate demoWorld "multi" "u" "p" (State.init.setImageId "sha256:i1" "sha256:c9")
    "docker.io/library/multi:latest" demoResolver "docker.io/library/multi"
    ⟨MediaTypeImageIndex, "sha256:i1", 9⟩ (by rfl) (by rfl) (by decide)

/-- C5. Degenerate list case: when the reference resolves to a descriptor of a
single-manifest media type with digest `d`, `fetchRegistryManiestListDigests`
returns exactly `[d]` from every prior state (the caches are not consulted),
the only registry call it makes is the resolve, and both caches are
unchanged. -/
theorem manifestList_degenerate (W : World) (image username password : String) (s : State)
    (ref : String) (resolver : Resolver) (name : String) (desc : Descriptor)
    (h : fetchRegistryResolveHelper W image username password = .ok (ref, resolver))
    (hr : resolver.resolve ref = .ok (name, desc))
    (ha : isManifestType desc.mediaType) :
    (∀ t : State, (fetchRegistryManiestListDigests W image username password t).1 =
      [desc.digest]) ∧
    (fetchRegistryManiestListDigests W image username password s).2.calls =
      s.calls ++ [.resolve ref] ∧
    s.sameCaches (fetchRegistryManiestListDigests W image username password s).2 := by
  have hm : desc.mediaType = MediaTypeDockerSchema2Manifest ∨
      desc.mediaType = MediaTypeImageManifest := ha
  refine ⟨fun t => ?_, ?_, ?_⟩ <;>
    simp [fetchRegistryManiestListDigests, h, hr, hm, State.sameCaches, State.record]

/-- C5 at a concrete input: `app` resolves to a single manifest. -/
theorem manifestList_degenerate_witness :
    (∀ t : State, (fetchRegistryManiestListDigests demoWorld "app" "u" "p" t).1 =
      ["sha256:m1"]) ∧
    (fetchRegistryManiestListDigests demoWorld "app" "u" "p" State.init).2.calls =
      State.init.calls ++ [.resolve "docker.io/library/app:latest"] ∧
    State.init.sameCaches (fetchRegistryManiestListDigests demoWorld "app" "u" "p" State.init).2 :=
  manifestList_degenerate demoWorld "app" "u" "p" State.init "docker.io/library/app:latest"
    demoResolver "docker.io/library/app" ⟨MediaTypeImageManifest, "sha256:m1", 7⟩
    (by rfl) (by rfl) (by decide)

/-- C3. Idempotence and digest-keyed caching of `fetchRegistryImageId`: let two
references (equal or not) both resolve, in the same world, to descriptors of a
single-manifest media type with the same digest. If the call for the first
returns a non-empty value `v` and leaves state `s1`, then the call for the
second from `s1` returns `v`, makes no registry call but its resolve (no
fetcher, no fetch), leaves both caches as in `s1`, and over both calls at most
one fetch was made. -/
theorem imageId_idempotent (W : World) (image1 username1 password1 : String)
    (image2 username2 password2 : String) (s s1 : State) (v : String)
    (ref1 : String) (resolver1 : Resolver) (name1 : String) (desc1 : Descriptor)
    (ref2 : String) (resolver2 : Resolver) (name2 : String) (desc2 : Descriptor)
    (h1 : fetchRegistryResolveHelper W image1 username1 password1 = .ok (ref1, resolver1))
    (hr1 : resolver1.resolve ref1 = .ok (name1, desc1))
    (ha1 : isManifestType desc1.mediaType)
    (h2 : fetchRegistryResolveHelper W image2 username2 password2 = .ok (ref2, resolver2))
    (hr2 : resolver2.resolve ref2 = .ok (name2, desc2))
    (ha2 : isManifestType desc2.mediaType)
    (hdig : desc2.digest = desc1.digest)
    (hfirst : fetchRegistryImageId W image1 username1 password1 s = (v, s1))
    (hne : v ≠ "") :
    (fetchRegistryImageId W image2 username2 password2 s1).1 = v ∧
    (fetchRegistryImageId W image2 username2 password2 s1).2.calls =
      s1.calls ++ [.resolve ref2] ∧
    s1.sameCaches (fetchRegistryImageId W image2 username2 password2 s1).2 ∧
    countFetch (fetchRegistryImageId W image2 username2 password2 s1).2.calls ≤
      countFetch s.calls + 1 := by
  have hne1 : (fetchRegistryImageId W image1 username1 password1 s).1 ≠ "" := by
    rw [hfirst]; exact hne
  have hkey := imageId_nonempty_cached W image1 username1 password1 s ref1 resolver1 name1
    desc1 h1 hr1 ha1 hne1
  rw [hfirst] at hkey
  have hc : s1.registryImageIdCache desc2.digest = some v := by
    rw [hdig]; exact hkey.1
  rw [imageId_hit W image2 username2 password2 s1 ref2 resolver2 name2 desc2 v h2 hr2 ha2 hc]
  refine ⟨rfl, rfl, ⟨rfl, rfl⟩, ?_⟩
  have hcount : countFetch (s1.record (.resolve ref2)).calls = countFetch s1.calls := by
    simp [State.record, countFetch]
  rw [hcount]
  exact hkey.2

/-- C3 at a concrete input: `app` and `app:1.0` are two references to the
manifest `sha256:m1` of the small registry. -/
theorem imageId_idempotent_witness :
    (fetchRegistryImageId demoWorld "app:1.0" "u" "p"
      (fetchRegistryImageId demoWorld "app" "u" "p" State.init).2).1 = "sha256:c1" ∧
    (fetchRegistryImageId demoWorld "app:1.0" "u" "p"
      (fetchRegistryImageId demoWorld "app" "u" "p" State.init).2).2.calls =
      (fetchRegistryImageId demoWorld "app" "u" "p" State.init).2.calls ++
        [.resolve "docker.io/library/app:1.0"] ∧
    (fetchRegistryImageId demoWorld "app" "u" "p" State.init).2.sameCaches
      (fetchRegistryImageId demoWorld "app:1.0" "u" "p"
        (fetchRegistryImageId demoWorld "app" "u" "p" State.init).2).2 ∧
    countFetch (fetchRegistryImageId demoWorld "app:1.0" "u" "p"
      (fetchRegistryImageId demoWorld "app" "u" "p" State.init).2).2.calls ≤
      countFetch State.init.calls + 1 :=
  imageId_idempotent demoWorld "app" "u" "p" "app:1.0" "u" "p" State.init
    (fetchRegistryImageId demoWorld "app" "u" "p" State.init).2 "sha256:c1"
    "docker.io/library/app:latest" demoResolver "docker.io/library/app"
    ⟨MediaTypeImageManifest, "sha256:m1", 7⟩
    "docker.io/library/app:1.0" demoResolver "docker.io/library/app"
    ⟨MediaTypeDockerSchema2Manifest, "sha256:m1", 7⟩
    (by rfl) (by rfl) (by decide) (by rfl) (by rfl) (by decide) (by rfl) (by rfl) (by decide)

/-- C6. Index decode: when the reference resolves to a descriptor of an index
media type whose digest the manifest-list cache does not hold, and fetcher,
fetch and decode succeed with an index whose manifests are `M`, then
`fetchRegistryManiestListDigests` returns the digests of `M` with the empty ones
filtered out: same order, duplicates kept, nothing added. -/
theorem manifestList_index_decode (W : World) (image username password : String) (s : State)
    (ref : String) (resolver : Resolver) (name : String) (desc : Descriptor)
    (fetcher : Fetcher) (body : String) (manifestList : Index)
    (h : fetchRegistryResolveHelper W image username password = .ok (ref, resolver))
    (hr : resolver.resolve ref = .ok (name, desc))
    (ha : isIndexType desc.mediaType)
    (hc : s.registryManifestListCache desc.digest = none)
    (hf : resolver.fetcher name = .ok fetcher)
    (hb : fetcher.fetch desc = .ok body)
    (hd : W.decodeIndex body = .ok manifestList) :
    (fetchRegistryManiestListDigests W image username password s).1 =
      (manifestList.manifests.map (fun m => m.digest)).filter (fun d => d ≠ "") := by
  rw [manifestList_miss W image username password s ref resolver name desc fetcher body
    manifestList h hr ha hc hf hb hd]
  rfl

/-- C6 at a concrete input: the index `multi` of the small registry has the
entries `a`, an empty digest, `b`, `a`. -/
theorem manifestList_index_decode_witness :
    (fetchRegistryManiestListDigests demoWorld "multi" "u" "p" State.init).1 =
      ["sha256:a", "sha256:b", "sha256:a"] :=
  manifestList_index_decode demoWorld "multi" "u" "p" State.init
    "docker.io/library/multi:latest" demoResolver "docker.io/library/multi"
    ⟨MediaTypeImageIndex, "sha256:i1", 9⟩ ⟨fun desc => demoContent desc.digest⟩ "body-i1"
    ⟨[⟨MediaTypeImageManifest, "sha256:a", 7⟩, ⟨MediaTypeImageManifest, "", 0⟩,
      ⟨MediaTypeImageManifest, "sha256:b", 7⟩, ⟨MediaTypeImageManifest, "sha256:a", 7⟩]⟩
    (by rfl) (by rfl) (by decide) (by rfl) (by rfl) (by rfl) (by rfl)

/-- C7. Empty results are not cached: when the reference resolves to an index
descriptor with digest `d` that the manifest-list cache does not hold, and
fetch and decode succeed with decoded list `L` (the non-empty child digests),
then the call returns `L`; the cache holds `d -> L` afterwards exactly when `L`
is not empty, in which case the cache is the prior one with that entry added;
and when `L` is empty both caches are unchanged, `d` still has no entry, and
the same call made again resolves, obtains the fetcher and fetches again. -/
theorem manifestList_empty_not_cached (W : World) (image username password : String)
    (s : State) (ref : String) (resolver : Resolver) (name : String) (desc : Descriptor)
    (fetcher : Fetcher) (body : String) (manifestList : Index)
    (h : fetchRegistryResolveHelper W image username password = .ok (ref, resolver))
    (hr : resolver.resolve ref = .ok (name, desc))
    (ha : isIndexType desc.mediaType)
    (hc : s.registryManifestListCache desc.digest = none)
    (hf : resolver.fetcher name = .ok fetcher)
    (hb : fetcher.fetch desc = .ok body)
    (hd : W.decodeIndex body = .ok manifestList) :
    (fetchRegistryManiestListDigests W image username password s).1 =
      nonEmptyDigests manifestList.manifests ∧
    ((fetchRegistryManiestListDigests W image username password s).2.registryManifestListCache
        desc.digest = some (nonEmptyDigests manifestList.manifests) ↔
      nonEmptyDigests manifestList.manifests ≠ []) ∧
    (nonEmptyDigests manifestList.manifests ≠ [] →
      (fetchRegistryManiestListDigests W image username password
          s).2.registryManifestListCache =
        s.registryManifestListCache.insert desc.digest
          (nonEmptyDigests manifestList.manifests)) ∧
    (nonEmptyDigests manifestList.manifests = [] →
      (fetchRegistryManiestListDigests W image username password s).1 = [] ∧
      s.sameCaches (fetchRegistryManiestListDigests W image username password s).2 ∧
      (fetchRegistryManiestListDigests W image username password
          s).2.registryManifestListCache desc.digest = none ∧
      (fetchRegistryManiestListDigests W image username password
          (fetchRegistryManiestListDigests W image username password s).2).2.calls =
        (fetchRegistryManiestListDigests W image username password s).2.calls ++
          [.resolve ref, .fetcher name, .fetch desc]) := by
  have hmiss := manifestList_miss W image username password s ref resolver name desc fetcher
    body manifestList h hr ha hc hf hb hd
  refine ⟨by rw [hmiss], ?_, ?_, ?_⟩
  · rw [hmiss]
    by_cases hl : nonEmptyDigests manifestList.manifests = []
    · simp [hl, State.record, hc]
    · simp [hl, State.record, State.setManifestList, Cache.insert]
  · intro hl
    rw [hmiss]
    simp [hl, State.record, State.setManifestList]
  · intro hl
    have hs : (fetchRegistryManiestListDigests W image username password s).2 =
        ((s.record (.resolve ref)).record (.fetcher name)).record (.fetch desc) := by
      rw [hmiss]; simp [hl]
    have hc2 : (((s.record (.resolve ref)).record (.fetcher name)).record
        (.fetch desc)).registryManifestListCache desc.digest = none := by
      simpa [State.record] using hc
    refine ⟨by rw [hmiss, hl], ?_, ?_, ?_⟩
    · rw [hs]; exact ⟨rfl, rfl⟩
    · rw [hs]; exact hc2
    · rw [hs, manifestList_miss W image username password _ ref resolver name desc fetcher
        body manifestList h hr ha hc2 hf hb hd]
      simp [hl, State.record]

/-- C7 at a concrete input: the index `hollow` of the small registry has one
entry, with an empty digest. -/
theorem manifestList_empty_not_cached_witness :
    (fetchRegistryManiestListDigests demoWorld "hollow" "u" "p" State.init).1 = [] ∧
    (fetchRegistryManiestListDigests demoWorld "hollow" "u" "p"
        State.init).2.registryManifestListCache "sha256:i0" = none ∧
    (fetchRegistryManiestListDigests demoWorld "hollow" "u" "p"
        (fetchRegistryManiestListDigests demoWorld "hollow" "u" "p" State.init).2).2.calls =
      (fetchRegistryManiestListDigests demoWorld "hollow" "u" "p" State.init).2.calls ++
        [.resolve "docker.io/library/hollow:latest", .fetcher "docker.io/library/hollow",
          .fetch ⟨MediaTypeDockerSchema2ManifestList, "sha256:i0", 9⟩] :=
  have hall := manifestList_empty_not_cached demoWorld "hollow" "u" "p" State.init
    "docker.io/library/hollow:latest" demoResolver "docker.io/library/hollow"
    ⟨MediaTypeDockerSchema2ManifestList, "sha256:i0", 9⟩ ⟨fun desc => demoContent desc.digest⟩
    "body-i0" ⟨[⟨MediaTypeImageManifest, "", 0⟩]⟩
    (by rfl) (by rfl) (by decide) (by rfl) (by rfl) (by rfl) (by rfl)
  ⟨(hall.2.2.2 (by decide)).1, (hall.2.2.2 (by decide)).2.2.1, (hall.2.2.2 (by decide)).2.2.2⟩

/-- C10. Cache validity: let every call of a finite sequence be made against a
content-addressed registry (a successful fetch of a descriptor gives the body
`content` assigns to its digest) with the same decoders, starting from empty
caches. Then every entry `d -> v` of the image-id cache has `v` non-empty and
equal to the config digest of the manifest decoded from the body under `d`,
every entry `d -> l` of the manifest-list cache has `l` non-empty and equal to
the in-order non-empty child digests of the index decoded from the body under
`d`, and every call keeps every existing entry with its value. So a cache hit
returns what a fresh fetch and decode gives: a further call of
`fetchRegistryImageId` that resolves to a single-manifest descriptor whose
digest has an entry `v` returns `v`, and the same call from any state without
that entry, with fetcher and fetch succeeding, returns `v` too; likewise a
further call of `fetchRegistryManiestListDigests` that resolves to an index
descriptor whose digest has an entry `l` returns `l`, as does the same call from
any state without that entry when fetcher and fetch succeed. -/
theorem cache_validity (content : String → String)
    (decodeManifest : String → Except String Manifest)
    (decodeIndex : String → Except String Index) (calls : List (World × Call))
    (hw : ∀ wc ∈ calls, ContentAddressed content wc.1 ∧
      wc.1.decodeManifest = decodeManifest ∧ wc.1.decodeIndex = decodeIndex) :
    CacheValid content decodeManifest decodeIndex (run calls State.init) ∧
    (∀ pre wc post, calls = pre ++ wc :: post →
      (run pre State.init).entriesKept (run (pre ++ [wc]) State.init)) ∧
    (∀ (W : World) (image username password ref : String) (resolver : Resolver)
        (name : String) (desc : Descriptor) (v : String),
      ContentAddressed content W → W.decodeManifest = decodeManifest →
      fetchRegistryResolveHelper W image username password = .ok (ref, resolver) →
      resolver.resolve ref = .ok (name, desc) → isManifestType desc.mediaType →
      (run calls State.init).registryImageIdCache desc.digest = some v →
      (fetchRegistryImageId W image username password (run calls State.init)).1 = v ∧
      ∀ (s0 : State) (fetcher : Fetcher) (body : String),
        s0.registryImageIdCache desc.digest = none →
        resolver.fetcher name = .ok fetcher → fetcher.fetch desc = .ok body →
        (fetchRegistryImageId W image username password s0).1 = v) ∧
    (∀ (W : World) (image username password ref : String) (resolver : Resolver)
        (name : String) (desc : Descriptor) (l : List String),
      ContentAddressed content W → W.decodeIndex = decodeIndex →
      fetchRegistryResolveHelper W image username password = .ok (ref, resolver) →
      resolver.resolve ref = .ok (name, desc) → isIndexType desc.mediaType →
      (run calls State.init).registryManifestListCache desc.digest = some l →
      (fetchRegistryManiestListDigests W image username password (run calls State.init)).1 =
        l ∧
      ∀ (s0 : State) (fetcher : Fetcher) (body : String),
        s0.registryManifestListCache desc.digest = none →
        resolver.fetcher name = .ok fetcher → fetcher.fetch desc = .ok body →
        (fetchRegistryManiestListDigests W image username password s0).1 = l) := by
  have hvalid := run_valid content decodeManifest decodeIndex calls hw
  refine ⟨hvalid, ?_, ?_, ?_⟩
  · intro pre wc post hsplit
    subst hsplit
    have hpre := run_valid content decodeManifest decodeIndex pre
      (fun x hx => hw x (List.mem_append_left _ hx))
    obtain ⟨hca, hdm, hdi⟩ := hw wc (List.mem_append_right _ (List.mem_cons_self wc post))
    rw [run_append]
    subst hdm hdi
    exact (step_valid content wc.1 wc.2 _ hca hpre).2
  · intro W image username password ref resolver name desc v hca hdm h hr ha hc
    refine ⟨?_, ?_⟩
    · rw [imageId_hit W image username password _ ref resolver name desc v h hr ha hc]
    · intro s0 fetcher body hc0 hf hb
      obtain ⟨_, m, hm, hmv⟩ := hvalid.1 desc.digest v hc
      have hres := helper_resolver W image username password ref resolver h
      have hbody := hca _ name fetcher desc body (hres ▸ hf) hb
      have hd : W.decodeManifest body = .ok m := by rw [hdm, hbody]; exact hm
      rw [imageId_miss_result W image username password s0 ref resolver name desc fetcher
        body m h hr ha hc0 hf hb hd]
      exact hmv
  · intro W image username password ref resolver name desc l hca hdi h hr ha hc
    refine ⟨?_, ?_⟩
    · rw [manifestList_hit W image username password _ ref resolver name desc l h hr ha hc]
    · intro s0 fetcher body hc0 hf hb
      obtain ⟨_, idx, hidx, hl⟩ := hvalid.2 desc.digest l hc
      have hres := helper_resolver W image username password ref resolver h
      have hbody := hca _ name fetcher desc body (hres ▸ hf) hb
      have hd : W.decodeIndex body = .ok idx := by rw [hdi, hbody]; exact hidx
      rw [manifestList_miss W image username password s0 ref resolver name desc fetcher
        body idx h hr ha hc0 hf hb hd]
      exact hl

/-- C10 at a concrete input: three calls on the small registry. Afterwards the
caches are valid, every call kept the entries, and a hit for `app:1.0` returns
the config digest that the call returns from empty caches. -/
theorem cache_validity_witness :
    CacheValid demoBody demoDecodeManifest demoDecodeIndex (run demoCalls State.init) ∧
    (∀ pre wc post, demoCalls = pre ++ wc :: post →
      (run pre State.init).entriesKept (run (pre ++ [wc]) State.init)) ∧
    (run demoCalls State.init).registryImageIdCache "sha256:m1" = some "sha256:c1" ∧
    (fetchRegistryImageId demoWorld "app:1.0" "u" "p" (run demoCalls State.init)).1 =
      "sha256:c1" ∧
    (fetchRegistryImageId demoWorld "app:1.0" "u" "p" State.init).1 = "sha256:c1" ∧
    (run demoCalls State.init).registryManifestListCache "sha256:i1" =
      some ["sha256:a", "sha256:b", "sha256:a"] ∧
    (fetchRegistryManiestListDigests demoWorld "multi" "u" "p" (run demoCalls State.init)).1 =
      ["sha256:a", "sha256:b", "sha256:a"] ∧
    (fetchRegistryManiestListDigests demoWorld "multi" "u" "p" State.init).1 =
      ["sha256:a", "sha256:b", "sha256:a"] :=
  have hall := cache_validity demoBody demoDecodeManifest demoDecodeIndex demoCalls (by
    intro wc hmem
    have hworld : wc.1 = demoWorld := by
      simp only [demoCalls, List.mem_cons, List.mem_singleton, List.mem_nil_iff,
        or_false] at hmem
      rcases hmem with h | h | h <;> rw [h]
    rw [hworld]
    exact ⟨demo_contentAddressed, rfl, rfl⟩)
  have himg := hall.2.2.1 demoWorld "app:1.0" "u" "p" "docker.io/library/app:1.0"
    demoResolver "docker.io/library/app" ⟨MediaTypeDockerSchema2Manifest, "sha256:m1", 7⟩
    "sha256:c1" demo_contentAddressed rfl (by rfl) (by rfl) (by decide) (by rfl)
  have hlist := hall.2.2.2 demoWorld "multi" "u" "p" "docker.io/library/multi:latest"
    demoResolver "docker.io/library/multi" ⟨MediaTypeImageIndex, "sha256:i1", 9⟩
    ["sha256:a", "sha256:b", "sha256:a"] demo_contentAddressed rfl (by rfl) (by rfl)
    (by decide) (by rfl)
  ⟨hall.1, hall.2.1, by rfl, himg.1,
    himg.2 State.init ⟨fun desc => demoContent desc.digest⟩ "body-m1" (by rfl) (by rfl)
      (by rfl),
    by rfl, hlist.1,
    hlist.2 State.init ⟨fun desc => demoContent desc.digest⟩ "body-i1" (by rfl) (by rfl)
      (by rfl)⟩

/-- C9. Host override: with `p` the value of `DOCKERHUB_PUBLIC_PROXY`, the
`Host` callback returns, for host `docker.io` and non-empty `p`, the host
component of `p` when `p` parses as a URL and the parse error when it does not;
when `p` is empty (unset) or the host is any other, it returns the host itself
without error. -/
theorem host_override (W : World) (host p : String)
    (hp : W.getenv "DOCKERHUB_PUBLIC_PROXY" = p) :
    (host = "docker.io" → p ≠ "" →
      ∀ u, W.urlParse p = .ok u → hostCallback W host = .ok u.host) ∧
    (host = "docker.io" → p ≠ "" →
      ∀ err, W.urlParse p = .error err → hostCallback W host = .error err) ∧
    (p = "" ∨ host ≠ "docker.io" → hostCallback W host = .ok host) := by
  refine ⟨?_, ?_, ?_⟩
  · intro hh hne u hu
    simp [hostCallback, hh, hp, hne, hu]
  · intro hh hne err hu
    simp [hostCallback, hh, hp, hne, hu]
  · intro hor
    rcases hor with he | hh
    · by_cases hd : host = "docker.io" <;> simp [hostCallback, hd, hp, he]
    · simp [hostCallback, hh]

/-- C9 at concrete inputs: the proxy `http://mirror.example:5000` routes
`docker.io` to `mirror.example:5000`; a proxy value that does not parse gives
the error; another host, or no proxy, keeps the host. -/
theorem host_override_witness :
    hostCallback (proxyWorld "http://mirror.example:5000") "docker.io" =
      .ok "mirror.example:5000" ∧
    hostCallback (proxyWorld ":5000") "docker.io" =
      .error "parse \":5000\": missing protocol scheme" ∧
    hostCallback (proxyWorld "http://mirror.example:5000") "quay.io" = .ok "quay.io" ∧
    hostCallback (proxyWorld "") "docker.io" = .ok "docker.io" :=
  ⟨(host_override (proxyWorld "http://mirror.example:5000") "docker.io"
      "http://mirror.example:5000" (by rfl)).1 (by rfl) (by decide)
      ⟨"http", "", "mirror.example:5000", "", "", ""⟩ (by rfl),
   (host_override (proxyWorld ":5000") "docker.io" ":5000" (by rfl)).2.1 (by rfl) (by decide)
      "parse \":5000\": missing protocol scheme" (by rfl),
   (host_override (proxyWorld "http://mirror.example:5000") "quay.io"
      "http://mirror.example:5000" (by rfl)).2.2 (Or.inr (by decide)),
   (host_override (proxyWorld "") "docker.io" "" (by rfl)).2.2 (Or.inl rfl)⟩

/-- C8, as stated, fails: `repo/image` parses to a name with neither tag nor
digest, and the canonical string the helper returns is
`docker.io/repo/image:latest`, with the default registry domain, not the input
followed by `:latest`. -/
theorem normalization_not_input :
    demoWorld.parseAnyReference "repo/image" = .ok (.repository "docker.io" "repo/image") ∧
    canonicalRef demoWorld "repo/image" "u" "p" = .ok "docker.io/repo/image:latest" ∧
    canonicalRef demoWorld "repo/image" "u" "p" ≠
      .ok (specCanonical "repo/image" (.repository "docker.io" "repo/image")) := by
  refine ⟨by rfl, by rfl, ?_⟩
  decide

/-- C8, amended. For every reference string that parses, the canonical string
the helper returns is the rendering (`String()`) of the parsed reference, which
carries the registry domain the parser gave it, with `:latest` appended when
the parsed reference is a name with neither tag nor digest, and with nothing
appended when it has a tag or a digest or is a bare digest; a string that does
not parse yields the parse error. -/
theorem normalization (W : World) (image username password : String) :
    (∀ err, W.parseAnyReference image = .error err →
      canonicalRef W image username password = .error err) ∧
    (∀ parsed, W.parseAnyReference image = .ok parsed →
      canonicalRef W image username password =
        .ok (if IsNameOnly parsed then parsed.String ++ ":latest" else parsed.String)) := by
  constructor
  · intro err hp
    simp [canonicalRef, fetchRegistryResolveHelper, hp]
  · intro parsed hp
    cases parsed <;>
      simp [canonicalRef, fetchRegistryResolveHelper, hp, Reference.isNamed, TagNameOnly,
        WithTag, IsNameOnly, Reference.String, defaultTag, String.append_assoc]

/-- C8, amended, at concrete inputs, with the parser of the concrete world. -/
theorem normalization_witness :
    canonicalRef demoWorld "repo/image" "u" "p" = .ok "docker.io/repo/image:latest" ∧
    canonicalRef demoWorld "repo/image:tag" "u" "p" = .ok "docker.io/repo/image:tag" ∧
    canonicalRef demoWorld "quay.io/repo/image" "u" "p" = .ok "quay.io/repo/image:latest" ∧
    canonicalRef demoWorld "repo image" "u" "p" = .error "invalid reference format" :=
  ⟨(normalization demoWorld "repo/image" "u" "p").2 (.repository "docker.io" "repo/image")
      (by rfl),
   (normalization demoWorld "repo/image:tag" "u" "p").2
      (.taggedReference "docker.io" "repo/image" "tag") (by rfl),
   (normalization demoWorld "quay.io/repo/image" "u" "p").2
      (.repository "quay.io" "repo/image") (by rfl),
   (normalization demoWorld "repo image" "u" "p").1 "invalid reference format" (by rfl)⟩

end Bashbrew
